import Mathlib

/-!
Verification of the xdp-playground core against its specification.

The definitions below are a shallow embedding of the Rust sources:
`src/ringbuf.rs` (BPF ring-buffer consumer), `src/utility.rs`
(alignment helper) and `src/umem.rs` (UMEM storage and registration).
Machine integers are modelled as `Nat` with explicit `% 2 ^ w`
wrapping wherever the Rust code wraps or truncates.
-/

namespace Xdp

/-- Bit 31 of a ring entry header: the kernel is still writing the entry. -/
def BPF_RINGBUF_BUSY_BIT : Nat := 2 ^ 31

/-- Bit 30 of a ring entry header: the entry is to be skipped, not delivered. -/
def BPF_RINGBUF_DISCARD_BIT : Nat := 2 ^ 30

/-- Fixed size of the BPF ring entry header, in bytes. -/
def BPF_RINGBUF_HDR_SZ : Nat := 8

/-- Modulus of `u32` arithmetic. -/
def U32_MOD : Nat := 2 ^ 32

/-- Modulus of `u64` (and 64-bit `usize`) arithmetic. -/
def U64_MOD : Nat := 2 ^ 64

/-- Largest value of a 64-bit `usize`. -/
def USIZE_MAX : Nat := 2 ^ 64 - 1

/-- The `u32` instance of `AlignUp::align_up` from `src/utility.rs`:
`((n + (bound - 1)) / bound) * bound`, the sum taken with `u32` wrapping. -/
def align_up (n bound : Nat) : Nat :=
  (n + (bound - 1)) % U32_MOD / bound * bound

/-- The function `roundup_len` from `src/ringbuf.rs`: shift the header left
then right by two (clearing the busy and discard bits), add the 8-byte
header size and align the result up to an 8-byte boundary, all in `u32`. -/
def roundup_len (len : Nat) : Nat :=
  let l1 := (len <<< 2) % U32_MOD
  let l2 := l1 >>> 2
  let l3 := (l2 + BPF_RINGBUF_HDR_SZ) % U32_MOD
  align_up l3 8

/-- Closed arithmetic form of `roundup_len`: the shifts keep the low 30 bits
and no later step wraps. -/
lemma roundup_len_closed (h : Nat) : roundup_len h = (h % 2 ^ 30 + 15) / 8 * 8 := by
  simp only [roundup_len, align_up, U32_MOD, BPF_RINGBUF_HDR_SZ,
    Nat.shiftLeft_eq, Nat.shiftRight_eq_div_pow]
  omega

/-- `roundup_len` never exceeds `2 ^ 30 + 8`. -/
lemma roundup_len_le (h : Nat) : roundup_len h ≤ 2 ^ 30 + 8 := by
  rw [roundup_len_closed]
  omega

/-- A header value below `2 ^ 32` with clear busy and discard bits is
below `2 ^ 30`. -/
lemma lt_of_no_ctrl_bits {len : Nat} (h32 : len < 2 ^ 32)
    (hb : len &&& BPF_RINGBUF_BUSY_BIT = 0)
    (hd : len &&& BPF_RINGBUF_DISCARD_BIT = 0) : len < 2 ^ 30 := by
  rw [BPF_RINGBUF_BUSY_BIT, Nat.and_two_pow] at hb
  rw [BPF_RINGBUF_DISCARD_BIT, Nat.and_two_pow] at hd
  have hb' : len.testBit 31 = false := by
    rcases Bool.eq_false_or_eq_true (len.testBit 31) with h | h
    · rw [h] at hb; simp at hb
    · exact h
  have hd' : len.testBit 30 = false := by
    rcases Bool.eq_false_or_eq_true (len.testBit 30) with h | h
    · rw [h] at hd; simp at hd
    · exact h
  rw [Nat.testBit_to_div_mod] at hb' hd'
  simp only [decide_eq_false_iff_not] at hb' hd'
  omega

/-- C2: for raw lengths with busy and discard bits clear (`L < 2 ^ 30`),
`roundup_len L` equals `align_up (L + 8) 8`, is at least `L + 8` and is a
multiple of 8; moreover `roundup_len 1 = 16`, `roundup_len 8 = 16` and
`roundup_len 9 = 24`. -/
theorem roundup_len_spec (L : Nat) (hL : L < 2 ^ 30) :
    roundup_len L = align_up (L + 8) 8 ∧
    L + 8 ≤ roundup_len L ∧
    roundup_len L % 8 = 0 ∧
    roundup_len 1 = 16 ∧ roundup_len 8 = 16 ∧ roundup_len 9 = 24 := by
  refine ⟨?_, ?_, ?_, by decide, by decide, by decide⟩
  · rw [roundup_len_closed]
    simp only [align_up, U32_MOD]
    omega
  · rw [roundup_len_closed]
    omega
  · rw [roundup_len_closed]
    omega

/-- Witness for C2 at the concrete input `L = 5`. -/
theorem roundup_len_spec_witness :
    5 < 2 ^ 30 ∧
    (roundup_len 5 = align_up (5 + 8) 8 ∧
     5 + 8 ≤ roundup_len 5 ∧
     roundup_len 5 % 8 = 0 ∧
     roundup_len 1 = 16 ∧ roundup_len 8 = 16 ∧ roundup_len 9 = 24) :=
  ⟨by decide, roundup_len_spec 5 (by decide)⟩

/-- C10: for every header value `h` (in particular every 32-bit one, busy or
discard bits set or not), `roundup_len h` equals `align_up (h % 2 ^ 30 + 8) 8`,
no intermediate `u32` addition wraps, and the result is at most `2 ^ 30 + 8`. -/
theorem roundup_len_total (h : Nat) :
    roundup_len h = align_up (h % 2 ^ 30 + 8) 8 ∧
    h % 2 ^ 30 + 8 < 2 ^ 32 ∧
    h % 2 ^ 30 + 8 + 7 < 2 ^ 32 ∧
    roundup_len h ≤ 2 ^ 30 + 8 := by
  refine ⟨?_, by omega, by omega, roundup_len_le h⟩
  rw [roundup_len_closed]
  simp only [align_up, U32_MOD]
  omega

/-! ## Ring buffer consumer model (`src/ringbuf.rs`) -/

/-- The mapped ring: the positional mask (`max_entries - 1`) and the byte
memory of the data region (each value is a byte, read modulo 256). -/
structure Ring where
  mask : Nat
  data : Nat → Nat

/-- Little-endian `u32` load of four bytes, as the volatile header read. -/
def readU32 (data : Nat → Nat) (off : Nat) : Nat :=
  data off % 256 + 256 * (data (off + 1) % 256) + 65536 * (data (off + 2) % 256) +
    16777216 * (data (off + 3) % 256)

/-- The `n` bytes of memory starting at offset `off`. -/
def bytesAt (data : Nat → Nat) (off n : Nat) : List Nat :=
  (List.range n).map fun i => data (off + i) % 256

/-- The header read by `poll_read` for consumer position `pos`:
a `u32` at `data_start + (pos & mask)`. -/
def headerAt (r : Ring) (pos : Nat) : Nat :=
  readU32 r.data (pos &&& r.mask)

/-- The destination buffer, modelling tokio's `ReadBuf`: the bytes already
filled and the total capacity. -/
structure ReadBuf where
  filled : List Nat
  capacity : Nat
  deriving DecidableEq

/-- `ReadBuf::remaining`: capacity left past the filled portion. -/
def ReadBuf.remaining (b : ReadBuf) : Nat := b.capacity - b.filled.length

/-- `ReadBuf::put_slice`: appends to the filled portion; tokio asserts that
the slice fits in the remaining capacity, so a too-long slice is a panic,
modelled as `none`. -/
def ReadBuf.put_slice (b : ReadBuf) (s : List Nat) : Option ReadBuf :=
  if s.length ≤ b.remaining then some ⟨b.filled ++ s, b.capacity⟩ else none

/-- How one iteration of the `poll_read` loop ends. -/
inductive IterControl where
  | pending
  | again
  | retOk
  | retErr
  | panicked
  | spin
  deriving DecidableEq

/-- State after a `poll_read` loop iteration: the local `consumer_pos`
variable, the contents of the consumer-position cell, the destination
buffer and how the iteration ended. -/
structure Iter where
  pos : Nat
  cell : Nat
  buf : ReadBuf
  control : IterControl
  deriving DecidableEq

/-- One iteration of the loop in `poll_read` (`src/ringbuf.rs`): compare the
local consumer position with the freshly read producer position; await
readiness when they are equal; otherwise read the entry header, retry on the
busy bit, advance past the footprint, skip and publish on the discard bit,
and otherwise deliver the payload (error when it exceeds the buffer
capacity) and publish. -/
def pollIter (r : Ring) (producer : Nat) (ready : Bool) (pos cell : Nat)
    (buf : ReadBuf) : Iter :=
  if pos = producer then
    if ready then ⟨pos, cell, buf, .again⟩ else ⟨pos, cell, buf, .pending⟩
  else
    let len := headerAt r pos
    if len &&& BPF_RINGBUF_BUSY_BIT ≠ 0 then ⟨pos, cell, buf, .again⟩
    else
      let pos' := (pos + roundup_len len) % U64_MOD
      if len &&& BPF_RINGBUF_DISCARD_BIT ≠ 0 then ⟨pos', pos', buf, .again⟩
      else
        let payload := bytesAt r.data ((pos &&& r.mask) + BPF_RINGBUF_HDR_SZ) len
        if payload.length ≤ buf.capacity then
          match buf.put_slice payload with
          | some buf' => ⟨pos', pos', buf', .retOk⟩
          | none => ⟨pos', cell, buf, .panicked⟩
        else ⟨pos', pos', buf, .retErr⟩

/-- The `poll_read` loop, with fuel bounding the number of iterations
(the producer position, memory and readiness are held fixed). -/
def pollReadLoop (r : Ring) (producer : Nat) (ready : Bool) :
    Nat → Nat → Nat → ReadBuf → Iter
  | 0, pos, cell, buf => ⟨pos, cell, buf, .spin⟩
  | fuel + 1, pos, cell, buf =>
    let it := pollIter r producer ready pos cell buf
    match it.control with
    | .again => pollReadLoop r producer ready fuel it.pos it.cell it.buf
    | _ => it

/-- `poll_read` from `src/ringbuf.rs`: load the consumer position from its
cell, then run the loop. -/
def poll_read (r : Ring) (producer : Nat) (ready : Bool) (fuel cell : Nat)
    (buf : ReadBuf) : Iter :=
  pollReadLoop r producer ready fuel cell cell buf

/-! ## UMEM model (`src/umem.rs`) -/

/-- The error enumeration of `src/lib.rs`, extended with the boxed
`TryFromIntError` that integer conversions in `UmemReg::new` may produce. -/
inductive Error where
  | InterfaceInvalid
  | Overflow
  | InvalidUmem
  | UnalignedUmem
  | PageSizeInvalid
  | SocketFdInvalid
  | Allocate
  | UmemReg
  | UmemRegFillRing
  | WrongMapType
  | ConsumerMmap
  | ProducerMmap
  | TryFromInt
  deriving DecidableEq

/-- `usize::checked_mul` on a 64-bit target. -/
def checked_mul (a b : Nat) : Option Nat :=
  if a * b ≤ USIZE_MAX then some (a * b) else none

/-- `UmemStorage::length`: `chunk_size * num_chunks` with overflow detection. -/
def storage_length (chunk_size num_chunks : Nat) : Except Error Nat :=
  match checked_mul chunk_size num_chunks with
  | some v => Except.ok v
  | none => Except.error Error.Overflow

/-- The `UmemConfig` record. -/
structure UmemConfig where
  fill_size : Nat
  comp_size : Nat
  frame_headroom : Nat
  flags : Nat
  deriving DecidableEq

/-- A `UmemStorage` instance: start address, chunk size and chunk count. -/
structure StorageModel where
  start : Nat
  chunk_size : Nat
  num_chunks : Nat
  deriving DecidableEq

/-- The `UmemReg` kernel registration record, fields in declaration order. -/
structure UmemReg where
  address : Nat
  length : Nat
  chunk_size : Nat
  headroom : Nat
  flags : Nat
  deriving DecidableEq

/-- `usize::try_into::<u64>()` on a 64-bit target. -/
def try_into_u64 (n : Nat) : Except Error Nat :=
  if n ≤ USIZE_MAX then Except.ok n else Except.error Error.TryFromInt

/-- `UmemReg::new` from `src/umem.rs`: convert the storage's start address,
computed length and chunk size, and copy headroom and flags from the config. -/
def UmemReg.new (area : StorageModel) (config : UmemConfig) :
    Except Error UmemReg := do
  let address ← try_into_u64 area.start
  let len ← storage_length area.chunk_size area.num_chunks
  let length ← try_into_u64 len
  let chunk_size ← try_into_u64 area.chunk_size
  Except.ok { address := address, length := length, chunk_size := chunk_size,
              headroom := config.frame_headroom, flags := config.flags }

/-- Little-endian bytes of a `u64` field. -/
def u64le (n : Nat) : List Nat :=
  [n % 256, n / 256 % 256, n / 65536 % 256, n / 16777216 % 256,
   n / 4294967296 % 256, n / 1099511627776 % 256,
   n / 281474976710656 % 256, n / 72057594037927936 % 256]

/-- Little-endian bytes of a `u32` field. -/
def u32le (n : Nat) : List Nat :=
  [n % 256, n / 256 % 256, n / 65536 % 256, n / 16777216 % 256]

/-- The `#[repr(C)]` layout of `UmemReg`: `u64, u64, u64, u32, u32` in
declaration order. -/
def UmemReg.bytes (r : UmemReg) : List Nat :=
  u64le r.address ++ u64le r.length ++ u64le r.chunk_size ++
    u32le r.headroom ++ u32le r.flags

/-! ## Ring buffer construction (`Ringbuf::from_map`) -/

/-- The map kinds `from_map` distinguishes. -/
inductive MapType where
  | RingBuf
  | Other
  deriving DecidableEq

/-- How `from_map` ends: a constructed ring (its mask), a returned error,
or a panic (from `expect`). -/
inductive FromMapOutcome where
  | ok (mask : Nat)
  | err (e : Error)
  | panics
  deriving DecidableEq

/-- `u32::checked_sub` on the entry count. -/
def checked_sub (a b : Nat) : Option Nat :=
  if b ≤ a then some (a - b) else none

/-- True exactly on the returned-error outcomes. -/
def FromMapOutcome.isErr : FromMapOutcome → Bool
  | .err _ => true
  | _ => false

/-- `Ringbuf::from_map` from `src/ringbuf.rs`: reject a non-ring-buffer map
with `WrongMapType`; `expect` (panic) when `max_entries.checked_sub(1)` is
`None`, i.e. when the capacity is zero; then query the page size and map the
consumer and producer pages, each failure its own error; on success the
stored mask is `max_entries - 1`. -/
def from_map (mapType : MapType) (max_entries : Nat) (pageSize : Option Nat)
    (consumerMmapNull producerMmapNull : Bool) : FromMapOutcome :=
  if mapType ≠ MapType.RingBuf then .err .WrongMapType
  else
    match checked_sub max_entries 1 with
    | none => .panics
    | some mask =>
      match pageSize with
      | none => .err .PageSizeInvalid
      | some _ =>
        if consumerMmapNull then .err .ConsumerMmap
        else if producerMmapNull then .err .ProducerMmap
        else .ok mask

/-! ## Ring buffer helper lemmas -/

/-- The byte list read from memory has exactly the requested length. -/
lemma bytesAt_length (data : Nat → Nat) (off n : Nat) :
    (bytesAt data off n).length = n := by
  simp [bytesAt]

/-- A header load always fits in a `u32`. -/
lemma headerAt_lt (r : Ring) (pos : Nat) : headerAt r pos < 2 ^ 32 := by
  unfold headerAt readU32
  omega

/-- Empty ring, handle not ready: the iteration suspends with nothing
changed. -/
lemma pollIter_empty_pending {r : Ring} {prod pos cell : Nat} {buf : ReadBuf}
    (heq : pos = prod) :
    pollIter r prod false pos cell buf = ⟨pos, cell, buf, IterControl.pending⟩ := by
  simp [pollIter, heq]

/-- Empty ring, handle ready: the iteration clears readiness and loops. -/
lemma pollIter_empty_ready {r : Ring} {prod pos cell : Nat} {buf : ReadBuf}
    (heq : pos = prod) :
    pollIter r prod true pos cell buf = ⟨pos, cell, buf, IterControl.again⟩ := by
  simp [pollIter, heq]

/-- Busy entry: the iteration loops with position, cell and buffer
untouched. -/
lemma pollIter_busy {r : Ring} {prod : Nat} {ready : Bool} {pos cell : Nat}
    {buf : ReadBuf} (hne : pos ≠ prod)
    (hb : headerAt r pos &&& BPF_RINGBUF_BUSY_BIT ≠ 0) :
    pollIter r prod ready pos cell buf = ⟨pos, cell, buf, IterControl.again⟩ := by
  simp [pollIter, hne, hb]

/-- Discarded entry: the iteration advances and publishes the footprint and
loops without touching the buffer. -/
lemma pollIter_discard {r : Ring} {prod : Nat} {ready : Bool} {pos cell : Nat}
    {buf : ReadBuf} (hne : pos ≠ prod)
    (hb : headerAt r pos &&& BPF_RINGBUF_BUSY_BIT = 0)
    (hd : headerAt r pos &&& BPF_RINGBUF_DISCARD_BIT ≠ 0)
    (hwrap : pos + roundup_len (headerAt r pos) < U64_MOD) :
    pollIter r prod ready pos cell buf =
      ⟨pos + roundup_len (headerAt r pos), pos + roundup_len (headerAt r pos),
       buf, IterControl.again⟩ := by
  simp [pollIter, hne, hb, hd, Nat.mod_eq_of_lt hwrap]

/-- Clean entry that fits: the iteration copies the payload, advances and
publishes the footprint, and returns success. -/
lemma pollIter_deliver {r : Ring} {prod : Nat} {ready : Bool} {pos cell : Nat}
    {buf : ReadBuf} (hne : pos ≠ prod)
    (hb : headerAt r pos &&& BPF_RINGBUF_BUSY_BIT = 0)
    (hd : headerAt r pos &&& BPF_RINGBUF_DISCARD_BIT = 0)
    (hcap : headerAt r pos ≤ buf.capacity)
    (hrem : headerAt r pos ≤ buf.remaining)
    (hwrap : pos + roundup_len (headerAt r pos) < U64_MOD) :
    pollIter r prod ready pos cell buf =
      ⟨pos + roundup_len (headerAt r pos), pos + roundup_len (headerAt r pos),
       ⟨buf.filled ++
          bytesAt r.data ((pos &&& r.mask) + BPF_RINGBUF_HDR_SZ) (headerAt r pos),
        buf.capacity⟩, IterControl.retOk⟩ := by
  simp [pollIter, hne, hb, hd, ReadBuf.put_slice, bytesAt_length, hcap, hrem,
    Nat.mod_eq_of_lt hwrap]

/-- Clean entry larger than the buffer's total capacity: the iteration
returns the write-overflow error, still advancing and publishing the
footprint, with the buffer untouched. -/
lemma pollIter_overflow {r : Ring} {prod : Nat} {ready : Bool} {pos cell : Nat}
    {buf : ReadBuf} (hne : pos ≠ prod)
    (hb : headerAt r pos &&& BPF_RINGBUF_BUSY_BIT = 0)
    (hd : headerAt r pos &&& BPF_RINGBUF_DISCARD_BIT = 0)
    (hcap : buf.capacity < headerAt r pos)
    (hwrap : pos + roundup_len (headerAt r pos) < U64_MOD) :
    pollIter r prod ready pos cell buf =
      ⟨pos + roundup_len (headerAt r pos), pos + roundup_len (headerAt r pos),
       buf, IterControl.retErr⟩ := by
  simp [pollIter, hne, hb, hd, bytesAt_length, Nat.not_le.mpr hcap,
    Nat.mod_eq_of_lt hwrap]

/-- Clean entry that passes the total-capacity check but exceeds the
remaining capacity: `put_slice` panics, before the position is published. -/
lemma pollIter_panic {r : Ring} {prod : Nat} {ready : Bool} {pos cell : Nat}
    {buf : ReadBuf} (hne : pos ≠ prod)
    (hb : headerAt r pos &&& BPF_RINGBUF_BUSY_BIT = 0)
    (hd : headerAt r pos &&& BPF_RINGBUF_DISCARD_BIT = 0)
    (hcap : headerAt r pos ≤ buf.capacity)
    (hrem : buf.remaining < headerAt r pos)
    (hwrap : pos + roundup_len (headerAt r pos) < U64_MOD) :
    pollIter r prod ready pos cell buf =
      ⟨pos + roundup_len (headerAt r pos), cell, buf, IterControl.panicked⟩ := by
  simp [pollIter, hne, hb, hd, ReadBuf.put_slice, bytesAt_length, hcap,
    Nat.not_le.mpr hrem, Nat.mod_eq_of_lt hwrap]

/-- An iteration that does not loop determines the loop's result. -/
lemma pollReadLoop_stop {r : Ring} {prod : Nat} {ready : Bool}
    {fuel pos cell : Nat} {buf : ReadBuf} {it : Iter}
    (h : pollIter r prod ready pos cell buf = it)
    (hc : it.control ≠ IterControl.again) :
    pollReadLoop r prod ready (fuel + 1) pos cell buf = it := by
  obtain ⟨p, c, b, ctrl⟩ := it
  cases ctrl
  case again => exact absurd rfl hc
  all_goals simp only [pollReadLoop, h]

/-- An iteration that loops hands its state to the remaining fuel. -/
lemma pollReadLoop_again_step {r : Ring} {prod : Nat} {ready : Bool}
    {fuel pos cell : Nat} {buf : ReadBuf} {p c : Nat} {b : ReadBuf}
    (h : pollIter r prod ready pos cell buf = ⟨p, c, b, IterControl.again⟩) :
    pollReadLoop r prod ready (fuel + 1) pos cell buf =
      pollReadLoop r prod ready fuel p c b := by
  simp only [pollReadLoop, h]

/-- With the positions equal and the handle permanently ready, the loop
only spins. -/
lemma pollReadLoop_spin_of_eq (r : Ring) (prod : Nat) (buf : ReadBuf) :
    ∀ fuel cell, pollReadLoop r prod true fuel prod cell buf =
      ⟨prod, cell, buf, IterControl.spin⟩ := by
  intro fuel
  induction fuel with
  | zero => intro cell; rfl
  | succ n ih =>
    intro cell
    rw [pollReadLoop_again_step (pollIter_empty_ready rfl)]
    exact ih cell

/-- A clean, fitting entry at the loaded consumer position is delivered. -/
lemma poll_read_deliver {r : Ring} {prod : Nat} {ready : Bool}
    {fuel pos : Nat} {buf : ReadBuf} (hne : pos ≠ prod)
    (hb : headerAt r pos &&& BPF_RINGBUF_BUSY_BIT = 0)
    (hd : headerAt r pos &&& BPF_RINGBUF_DISCARD_BIT = 0)
    (hcap : headerAt r pos ≤ buf.capacity)
    (hrem : headerAt r pos ≤ buf.remaining)
    (hwrap : pos + roundup_len (headerAt r pos) < U64_MOD) :
    poll_read r prod ready (fuel + 1) pos buf =
      ⟨pos + roundup_len (headerAt r pos), pos + roundup_len (headerAt r pos),
       ⟨buf.filled ++
          bytesAt r.data ((pos &&& r.mask) + BPF_RINGBUF_HDR_SZ) (headerAt r pos),
        buf.capacity⟩, IterControl.retOk⟩ :=
  pollReadLoop_stop (pollIter_deliver hne hb hd hcap hrem hwrap) (by simp)

/-- A clean entry larger than the buffer's total capacity yields the
write-overflow error with the footprint consumed. -/
lemma poll_read_overflow_raw {r : Ring} {prod : Nat} {ready : Bool}
    {fuel pos : Nat} {buf : ReadBuf} (hne : pos ≠ prod)
    (hb : headerAt r pos &&& BPF_RINGBUF_BUSY_BIT = 0)
    (hd : headerAt r pos &&& BPF_RINGBUF_DISCARD_BIT = 0)
    (hcap : buf.capacity < headerAt r pos)
    (hwrap : pos + roundup_len (headerAt r pos) < U64_MOD) :
    poll_read r prod ready (fuel + 1) pos buf =
      ⟨pos + roundup_len (headerAt r pos), pos + roundup_len (headerAt r pos),
       buf, IterControl.retErr⟩ :=
  pollReadLoop_stop (pollIter_overflow hne hb hd hcap hwrap) (by simp)

/-! ## UMEM claims -/

/-- C7: `length()` returns `chunk_size * num_chunks` whenever the product
fits in a 64-bit `usize`, and returns the `Overflow` error (never a wrapped
value) whenever the multiplication overflows. -/
theorem storage_length_spec (cs nc : Nat) :
    (cs * nc ≤ USIZE_MAX → storage_length cs nc = Except.ok (cs * nc)) ∧
    (USIZE_MAX < cs * nc → storage_length cs nc = Except.error Error.Overflow) := by
  constructor
  · intro h
    simp [storage_length, checked_mul, h]
  · intro h
    simp [storage_length, checked_mul, Nat.not_le.mpr h]

/-- Witness for C7: in-range product at `(4096, 8)`, overflowing product at
`(2 ^ 63, 4)`. -/
theorem storage_length_spec_witness :
    4096 * 8 ≤ USIZE_MAX ∧ storage_length 4096 8 = Except.ok 32768 ∧
    USIZE_MAX < 2 ^ 63 * 4 ∧
    storage_length (2 ^ 63) 4 = Except.error Error.Overflow :=
  ⟨by decide, (storage_length_spec 4096 8).1 (by decide),
   by decide, (storage_length_spec (2 ^ 63) 4).2 (by decide)⟩

/-- C8: whenever `UmemReg::new` succeeds, the record's fields are the
storage's start address, the computed length, the storage's chunk size, and
the config's headroom and flags copied verbatim, and its `#[repr(C)]` layout
is the three `u64` fields followed by the two `u32` fields, 32 bytes in
declaration order. -/
theorem umem_reg_new_spec (area : StorageModel) (config : UmemConfig)
    (reg : UmemReg) (h : UmemReg.new area config = Except.ok reg) :
    reg.address = area.start ∧
    reg.length = area.chunk_size * area.num_chunks ∧
    reg.chunk_size = area.chunk_size ∧
    reg.headroom = config.frame_headroom ∧
    reg.flags = config.flags ∧
    UmemReg.bytes reg =
      u64le area.start ++ u64le (area.chunk_size * area.num_chunks) ++
        u64le area.chunk_size ++ u32le config.frame_headroom ++
        u32le config.flags ∧
    (UmemReg.bytes reg).length = 32 := by
  simp only [UmemReg.new, try_into_u64, storage_length, checked_mul, bind,
    Except.bind] at h
  by_cases h1 : area.start ≤ USIZE_MAX
  · simp only [if_pos h1] at h
    by_cases h2 : area.chunk_size * area.num_chunks ≤ USIZE_MAX
    · simp only [if_pos h2] at h
      by_cases h3 : area.chunk_size ≤ USIZE_MAX
      · simp only [if_pos h3] at h
        have hreg : reg =
            ⟨area.start, area.chunk_size * area.num_chunks, area.chunk_size,
             config.frame_headroom, config.flags⟩ := by
          cases h
          rfl
        subst hreg
        refine ⟨rfl, rfl, rfl, rfl, rfl, rfl, ?_⟩
        simp [UmemReg.bytes, u64le, u32le]
      · simp [if_neg h3] at h
    · simp [if_neg h2] at h
  · simp [if_neg h1] at h

/-- Witness for C8 at a concrete storage and config. -/
theorem umem_reg_new_spec_witness :
    UmemReg.new ⟨4096, 8, 4⟩ ⟨2048, 2048, 7, 9⟩ = Except.ok ⟨4096, 32, 8, 7, 9⟩ ∧
    ((4096 : Nat) = 4096 ∧ (32 : Nat) = 8 * 4 ∧ (8 : Nat) = 8 ∧
     (7 : Nat) = 7 ∧ (9 : Nat) = 9 ∧
     UmemReg.bytes ⟨4096, 32, 8, 7, 9⟩ =
       u64le 4096 ++ u64le (8 * 4) ++ u64le 8 ++ u32le 7 ++ u32le 9 ∧
     (UmemReg.bytes ⟨4096, 32, 8, 7, 9⟩).length = 32) :=
  ⟨rfl, umem_reg_new_spec ⟨4096, 8, 4⟩ ⟨2048, 2048, 7, 9⟩
    ⟨4096, 32, 8, 7, 9⟩ rfl⟩

/-! ## Ring buffer construction claims -/

/-- C9 counterexample: with a ring-buffer map of declared capacity zero (and
every later step able to succeed), `from_map` panics on the `expect` over
`checked_sub` instead of returning an error value. -/
theorem from_map_zero_capacity_counterexample :
    from_map MapType.RingBuf 0 (some 4096) false false = FromMapOutcome.panics ∧
    (from_map MapType.RingBuf 0 (some 4096) false false).isErr = false := by
  exact ⟨rfl, rfl⟩

/-- C9 amended: zero declared capacity makes construction panic rather than
return an error; for every non-zero capacity (with the page-size query and
both mappings succeeding) construction returns a ring whose stored mask is
`capacity - 1`. -/
theorem from_map_mask_spec (cap ps : Nat) (hcap : cap ≠ 0) :
    from_map MapType.RingBuf cap (some ps) false false =
      FromMapOutcome.ok (cap - 1) ∧
    from_map MapType.RingBuf 0 (some ps) false false =
      FromMapOutcome.panics := by
  constructor
  · simp [from_map, checked_sub, Nat.one_le_iff_ne_zero.mpr hcap]
  · simp [from_map, checked_sub]

/-- Witness for C9 at capacity 8 and page size 4096. -/
theorem from_map_mask_spec_witness :
    (8 : Nat) ≠ 0 ∧
    (from_map MapType.RingBuf 8 (some 4096) false false =
       FromMapOutcome.ok 7 ∧
     from_map MapType.RingBuf 0 (some 4096) false false =
       FromMapOutcome.panics) :=
  ⟨by decide, from_map_mask_spec 8 4096 (by decide)⟩

/-! ## Ring buffer claims -/

/-- C1: when the entry at `data_start + (consumer_position & mask)` has
busy and discard bits clear and `poll_read` succeeds, it delivers exactly
the header's length in bytes, those bytes being the memory just past the
8-byte header, and publishes the consumer position advanced by exactly the
entry's footprint `roundup_len(header)`. -/
theorem poll_read_success_delivers (r : Ring) (prod : Nat) (ready : Bool)
    (fuel pos : Nat) (buf : ReadBuf)
    (hb : headerAt r pos &&& BPF_RINGBUF_BUSY_BIT = 0)
    (hd : headerAt r pos &&& BPF_RINGBUF_DISCARD_BIT = 0)
    (hwrap : pos + roundup_len (headerAt r pos) < U64_MOD)
    (hok : (poll_read r prod ready fuel pos buf).control = IterControl.retOk) :
    poll_read r prod ready fuel pos buf =
      ⟨pos + roundup_len (headerAt r pos), pos + roundup_len (headerAt r pos),
       ⟨buf.filled ++
          bytesAt r.data ((pos &&& r.mask) + BPF_RINGBUF_HDR_SZ) (headerAt r pos),
        buf.capacity⟩, IterControl.retOk⟩ ∧
    (bytesAt r.data ((pos &&& r.mask) + BPF_RINGBUF_HDR_SZ) (headerAt r pos)).length
      = headerAt r pos ∧
    headerAt r pos < 2 ^ 30 := by
  refine ⟨?_, bytesAt_length _ _ _, lt_of_no_ctrl_bits (headerAt_lt r pos) hb hd⟩
  cases fuel with
  | zero => exact absurd hok (by simp [poll_read, pollReadLoop])
  | succ n =>
    by_cases hpp : pos = prod
    · cases ready with
      | false =>
        rw [poll_read, pollReadLoop_stop (pollIter_empty_pending hpp) (by simp)] at hok
        simp at hok
      | true =>
        subst hpp
        rw [poll_read, pollReadLoop_spin_of_eq] at hok
        simp at hok
    · by_cases hcap : headerAt r pos ≤ buf.capacity
      · by_cases hrem : headerAt r pos ≤ buf.remaining
        · exact poll_read_deliver hpp hb hd hcap hrem hwrap
        · rw [poll_read, pollReadLoop_stop
            (pollIter_panic hpp hb hd hcap (Nat.not_le.mp hrem) hwrap) (by simp)] at hok
          simp at hok
      · rw [poll_read_overflow_raw hpp hb hd (Nat.not_le.mp hcap) hwrap] at hok
        simp at hok

/-- C4: a discarded (busy-clear) entry advances and publishes the consumer
position by its full footprint, delivers nothing, and the loop continues
with the next entry on the unchanged buffer. -/
theorem poll_read_discard_skips (r : Ring) (prod : Nat) (ready : Bool)
    (fuel pos cell : Nat) (buf : ReadBuf)
    (hne : pos ≠ prod)
    (hb : headerAt r pos &&& BPF_RINGBUF_BUSY_BIT = 0)
    (hd : headerAt r pos &&& BPF_RINGBUF_DISCARD_BIT ≠ 0)
    (hwrap : pos + roundup_len (headerAt r pos) < U64_MOD) :
    pollIter r prod ready pos cell buf =
      ⟨pos + roundup_len (headerAt r pos), pos + roundup_len (headerAt r pos),
       buf, IterControl.again⟩ ∧
    poll_read r prod ready (fuel + 1) pos buf =
      poll_read r prod ready fuel (pos + roundup_len (headerAt r pos)) buf := by
  refine ⟨pollIter_discard hne hb hd hwrap, ?_⟩
  simp only [poll_read]
  exact pollReadLoop_again_step (pollIter_discard hne hb hd hwrap)

/-- C5: a busy entry neither advances nor publishes the consumer position
and is never delivered; the loop restarts with everything unchanged. -/
theorem poll_read_busy_retries (r : Ring) (prod : Nat) (ready : Bool)
    (fuel pos cell : Nat) (buf : ReadBuf)
    (hne : pos ≠ prod)
    (hb : headerAt r pos &&& BPF_RINGBUF_BUSY_BIT ≠ 0) :
    pollIter r prod ready pos cell buf = ⟨pos, cell, buf, IterControl.again⟩ ∧
    poll_read r prod ready (fuel + 1) pos buf =
      poll_read r prod ready fuel pos buf := by
  refine ⟨pollIter_busy hne hb, ?_⟩
  simp only [poll_read]
  exact pollReadLoop_again_step (pollIter_busy hne hb)

/-- C6: with the loaded consumer position equal to the loaded producer
position and the handle not ready, `poll_read` suspends, returning no data,
writing nothing into the buffer and leaving the consumer cell unchanged. -/
theorem poll_read_empty_suspends (r : Ring) (prod fuel pos cell : Nat)
    (buf : ReadBuf) (heq : pos = prod) :
    pollIter r prod false pos cell buf = ⟨pos, cell, buf, IterControl.pending⟩ ∧
    poll_read r prod false (fuel + 1) pos buf =
      ⟨pos, pos, buf, IterControl.pending⟩ := by
  refine ⟨pollIter_empty_pending heq, ?_⟩
  simp only [poll_read]
  exact pollReadLoop_stop (pollIter_empty_pending heq) (by simp)

/-- C3 amended: a clean entry whose payload exceeds the buffer's total
capacity yields the write-overflow error with nothing written, the consumer
position advanced and published by the full footprint; a subsequent read
from the advanced position delivers the next entry, not a repeat. -/
theorem poll_read_overflow_consumes (r : Ring) (prod : Nat) (ready : Bool)
    (fuel fuel2 pos : Nat) (buf buf2 : ReadBuf)
    (hne : pos ≠ prod)
    (hb : headerAt r pos &&& BPF_RINGBUF_BUSY_BIT = 0)
    (hd : headerAt r pos &&& BPF_RINGBUF_DISCARD_BIT = 0)
    (hcap : buf.capacity < headerAt r pos)
    (hwrap : pos + roundup_len (headerAt r pos) < U64_MOD)
    (h2ne : pos + roundup_len (headerAt r pos) ≠ prod)
    (h2b : headerAt r (pos + roundup_len (headerAt r pos)) &&&
      BPF_RINGBUF_BUSY_BIT = 0)
    (h2d : headerAt r (pos + roundup_len (headerAt r pos)) &&&
      BPF_RINGBUF_DISCARD_BIT = 0)
    (h2cap : headerAt r (pos + roundup_len (headerAt r pos)) ≤ buf2.capacity)
    (h2rem : headerAt r (pos + roundup_len (headerAt r pos)) ≤ buf2.remaining)
    (h2wrap : pos + roundup_len (headerAt r pos) +
      roundup_len (headerAt r (pos + roundup_len (headerAt r pos))) < U64_MOD) :
    poll_read r prod ready (fuel + 1) pos buf =
      ⟨pos + roundup_len (headerAt r pos), pos + roundup_len (headerAt r pos),
       buf, IterControl.retErr⟩ ∧
    poll_read r prod ready (fuel2 + 1) (pos + roundup_len (headerAt r pos)) buf2 =
      ⟨pos + roundup_len (headerAt r pos) +
         roundup_len (headerAt r (pos + roundup_len (headerAt r pos))),
       pos + roundup_len (headerAt r pos) +
         roundup_len (headerAt r (pos + roundup_len (headerAt r pos))),
       ⟨buf2.filled ++
          bytesAt r.data
            (((pos + roundup_len (headerAt r pos)) &&& r.mask) + BPF_RINGBUF_HDR_SZ)
            (headerAt r (pos + roundup_len (headerAt r pos))),
        buf2.capacity⟩, IterControl.retOk⟩ :=
  ⟨poll_read_overflow_raw hne hb hd hcap hwrap,
   poll_read_deliver h2ne h2b h2d h2cap h2rem h2wrap⟩

/-! ## Concrete example rings for witnesses and counterexamples -/

/-- Data region holding a clean 8-byte entry at offset 0 (bytes 8..15 are
`8..15`) followed by a clean 3-byte entry at offset 16 (bytes 124, 125,
126). -/
def exData : Nat → Nat := fun i =>
  if i = 0 then 8
  else if i = 16 then 3
  else if 8 ≤ i ∧ i < 16 then i
  else if 24 ≤ i ∧ i < 27 then 100 + i
  else 0

/-- A ring of capacity 4096 over `exData`. -/
def exRing : Ring := ⟨4095, exData⟩

/-- Data region whose entry at offset 0 has the busy bit set (header
`2 ^ 31 + 4`). -/
def exDataBusy : Nat → Nat := fun i =>
  if i = 0 then 4 else if i = 3 then 128 else 0

/-- A ring of capacity 4096 over `exDataBusy`. -/
def exRingBusy : Ring := ⟨4095, exDataBusy⟩

/-- Data region whose entry at offset 0 has the discard bit set (header
`2 ^ 30 + 5`), followed by a clean 3-byte entry at offset 16. -/
def exDataDiscard : Nat → Nat := fun i =>
  if i = 0 then 5
  else if i = 3 then 64
  else if i = 16 then 3
  else if 24 ≤ i ∧ i < 27 then 7
  else 0

/-- A ring of capacity 4096 over `exDataDiscard`. -/
def exRingDiscard : Ring := ⟨4095, exDataDiscard⟩

/-- Witness for C1: the 8-byte entry of `exRing` is delivered in full. -/
theorem poll_read_success_delivers_witness :
    headerAt exRing 0 &&& BPF_RINGBUF_BUSY_BIT = 0 ∧
    headerAt exRing 0 &&& BPF_RINGBUF_DISCARD_BIT = 0 ∧
    0 + roundup_len (headerAt exRing 0) < U64_MOD ∧
    (poll_read exRing 32 false 1 0 ⟨[], 16⟩).control = IterControl.retOk ∧
    (poll_read exRing 32 false 1 0 ⟨[], 16⟩ =
       ⟨0 + roundup_len (headerAt exRing 0), 0 + roundup_len (headerAt exRing 0),
        ⟨([] : List Nat) ++
           bytesAt exRing.data ((0 &&& exRing.mask) + BPF_RINGBUF_HDR_SZ)
             (headerAt exRing 0),
         16⟩, IterControl.retOk⟩ ∧
     (bytesAt exRing.data ((0 &&& exRing.mask) + BPF_RINGBUF_HDR_SZ)
        (headerAt exRing 0)).length = headerAt exRing 0 ∧
     headerAt exRing 0 < 2 ^ 30) :=
  ⟨by decide, by decide, by decide, by decide,
   poll_read_success_delivers exRing 32 false 1 0 ⟨[], 16⟩ (by decide) (by decide)
     (by decide) (by decide)⟩

/-- Witness for C4: the discarded entry of `exRingDiscard` is skipped with
its footprint published. -/
theorem poll_read_discard_skips_witness :
    (0 : Nat) ≠ 32 ∧
    headerAt exRingDiscard 0 &&& BPF_RINGBUF_BUSY_BIT = 0 ∧
    headerAt exRingDiscard 0 &&& BPF_RINGBUF_DISCARD_BIT ≠ 0 ∧
    0 + roundup_len (headerAt exRingDiscard 0) < U64_MOD ∧
    (pollIter exRingDiscard 32 false 0 7 ⟨[], 4⟩ =
       ⟨0 + roundup_len (headerAt exRingDiscard 0),
        0 + roundup_len (headerAt exRingDiscard 0), ⟨[], 4⟩, IterControl.again⟩ ∧
     poll_read exRingDiscard 32 false (0 + 1) 0 ⟨[], 4⟩ =
       poll_read exRingDiscard 32 false 0
         (0 + roundup_len (headerAt exRingDiscard 0)) ⟨[], 4⟩) :=
  ⟨by decide, by decide, by decide, by decide,
   poll_read_discard_skips exRingDiscard 32 false 0 0 7 ⟨[], 4⟩ (by decide)
     (by decide) (by decide) (by decide)⟩

/-- Witness for C5: the busy entry of `exRingBusy` leaves everything
unchanged. -/
theorem poll_read_busy_retries_witness :
    (0 : Nat) ≠ 32 ∧
    headerAt exRingBusy 0 &&& BPF_RINGBUF_BUSY_BIT ≠ 0 ∧
    (pollIter exRingBusy 32 false 0 5 ⟨[], 4⟩ = ⟨0, 5, ⟨[], 4⟩, IterControl.again⟩ ∧
     poll_read exRingBusy 32 false (0 + 1) 0 ⟨[], 4⟩ =
       poll_read exRingBusy 32 false 0 0 ⟨[], 4⟩) :=
  ⟨by decide, by decide,
   poll_read_busy_retries exRingBusy 32 false 0 0 5 ⟨[], 4⟩ (by decide) (by decide)⟩

/-- Witness for C6: equal positions with the handle not ready suspend. -/
theorem poll_read_empty_suspends_witness :
    (7 : Nat) = 7 ∧
    (pollIter exRing 7 false 7 3 ⟨[], 4⟩ = ⟨7, 3, ⟨[], 4⟩, IterControl.pending⟩ ∧
     poll_read exRing 7 false (0 + 1) 7 ⟨[], 4⟩ =
       ⟨7, 7, ⟨[], 4⟩, IterControl.pending⟩) :=
  ⟨rfl, poll_read_empty_suspends exRing 7 0 7 3 ⟨[], 4⟩ rfl⟩

/-- C3 counterexample: the 8-byte payload of `exRing` exceeds the remaining
capacity (7) of a partially filled 10-byte buffer, yet `poll_read` does not
return the write-overflow error: the code checks the total capacity (10),
calls `put_slice`, and panics on tokio's remaining-capacity assertion, with
the consumer position left unpublished. -/
theorem poll_read_overflow_counterexample :
    ReadBuf.remaining ⟨[9, 9, 9], 10⟩ < headerAt exRing 0 ∧
    headerAt exRing 0 ≤ (10 : Nat) ∧
    poll_read exRing 32 false 1 0 ⟨[9, 9, 9], 10⟩ =
      ⟨16, 0, ⟨[9, 9, 9], 10⟩, IterControl.panicked⟩ :=
  ⟨by decide, by decide, by decide⟩

/-- Witness for C3 (amended): a 4-byte buffer is too small for the 8-byte
entry of `exRing`; the error is returned, the footprint consumed, and the
next read delivers the 3-byte entry. -/
theorem poll_read_overflow_consumes_witness :
    (0 : Nat) ≠ 32 ∧
    (⟨[], 4⟩ : ReadBuf).capacity < headerAt exRing 0 ∧
    (poll_read exRing 32 false (0 + 1) 0 ⟨[], 4⟩ =
       ⟨0 + roundup_len (headerAt exRing 0), 0 + roundup_len (headerAt exRing 0),
        ⟨[], 4⟩, IterControl.retErr⟩ ∧
     poll_read exRing 32 false (0 + 1) (0 + roundup_len (headerAt exRing 0)) ⟨[], 4⟩ =
       ⟨0 + roundup_len (headerAt exRing 0) +
          roundup_len (headerAt exRing (0 + roundup_len (headerAt exRing 0))),
        0 + roundup_len (headerAt exRing 0) +
          roundup_len (headerAt exRing (0 + roundup_len (headerAt exRing 0))),
        ⟨([] : List Nat) ++
           bytesAt exRing.data
             (((0 + roundup_len (headerAt exRing 0)) &&& exRing.mask) +
               BPF_RINGBUF_HDR_SZ)
             (headerAt exRing (0 + roundup_len (headerAt exRing 0))),
         4⟩, IterControl.retOk⟩) :=
  ⟨by decide, by decide,
   poll_read_overflow_consumes exRing 32 false 0 0 0 ⟨[], 4⟩ ⟨[], 4⟩ (by decide)
     (by decide) (by decide) (by decide) (by decide) (by decide) (by decide)
     (by decide) (by decide) (by decide) (by decide)⟩

end Xdp
